import Mathlib

/-!
Verification of the bookings `get` handler (tRPC viewer bookings endpoint).

The development shallowly embeds the handler's pipeline: the status-tag
filter resolver, the five visibility sub-queries, deduplication by `uid`,
the enrichment query with attendee redaction and normalization, the
recurring-series aggregation, and offset pagination.  The relational store
is modelled as an explicit `Db` value holding the booking, event-type,
team and membership tables; each Prisma query becomes a pure function over
`Db` (filter, sort by `startTime`, `skip`/`take`).
-/

namespace BookingsGet

/-- `BookingStatus` enum (Prisma). -/
inductive BookingStatus
  | ACCEPTED
  | CANCELLED
  | REJECTED
  | PENDING
  | AWAITING_HOST
deriving DecidableEq

/-- Membership role enum; the queries only distinguish ADMIN/OWNER from the rest. -/
inductive MembershipRole
  | ADMIN
  | OWNER
  | MEMBER
deriving DecidableEq

/-- An attendee row (projected to the e-mail used by the queries). -/
structure Attendee where
  email : String
deriving DecidableEq

/-- A `BookingSeatsReference` row joined with its attendee's e-mail. -/
structure SeatReference where
  referenceUid : String
  attendeeEmail : String
deriving DecidableEq

/-- An event-type row, restricted to the fields the handler reads.
`parentId` points to the parent (managed) event type, `teamId` to the owning
team; `hostUserIds`/`memberUserIds` model the `hosts`/`users` relations used
by the `userIds` scoping filter. -/
structure EventType where
  id : Nat
  teamId : Option Nat
  parentId : Option Nat
  seatsShowAttendees : Option Bool
  price : Nat
  currency : String
  hostUserIds : List Nat
  memberUserIds : List Nat
deriving DecidableEq

/-- A booking row, restricted to the fields the handler reads. Timestamps are
integers (epoch milliseconds). -/
structure Booking where
  id : Nat
  uid : String
  userId : Nat
  eventTypeId : Option Nat
  startTime : Int
  endTime : Int
  status : BookingStatus
  recurringEventId : Option String
  attendees : List Attendee
  seatsReferences : List SeatReference
deriving DecidableEq

/-- A team row; `parentId` is the owning organization. -/
structure Team where
  id : Nat
  parentId : Option Nat
deriving DecidableEq

/-- A membership row linking a user to a team with a role. -/
structure Membership where
  userId : Nat
  teamId : Nat
  role : MembershipRole
deriving DecidableEq

/-- The relational store visible to the handler. -/
structure Db where
  bookings : List Booking
  eventTypes : List EventType
  teams : List Team
  memberships : List Membership

/-- The viewer identity taken from the session context (`ctx.user`). -/
structure Viewer where
  id : Nat
  email : String

def Db.findEventType (db : Db) (i : Nat) : Option EventType :=
  db.eventTypes.find? (fun e => e.id == i)

def Db.findTeam (db : Db) (i : Nat) : Option Team :=
  db.teams.find? (fun t => t.id == i)

/-- `members: { some: { userId, role: { in: [ADMIN, OWNER] } } }` on a team. -/
def Db.isAdminOrOwner (db : Db) (uid : Nat) (teamId : Nat) : Bool :=
  db.memberships.any (fun m =>
    m.userId == uid && m.teamId == teamId &&
      (m.role == MembershipRole.ADMIN || m.role == MembershipRole.OWNER))

/-- `team.parent.members: { some: { userId, role: { in: [ADMIN, OWNER] } } }`. -/
def Db.parentAdminOrOwner (db : Db) (uid : Nat) (teamId : Nat) : Bool :=
  match db.findTeam teamId with
  | some t =>
    match t.parentId with
    | some p => db.isAdminOrOwner uid p
    | none => false
  | none => false

/-- The status tag of the request (`input.filters.status`). -/
inductive BookingListingStatus
  | upcoming
  | recurring
  | past
  | cancelled
  | unconfirmed
deriving DecidableEq

/-- Prisma `orderBy: { startTime: "asc" | "desc" }`. -/
inductive SortOrder
  | asc
  | desc
deriving DecidableEq

/-- The `bookingListingFilters` record of the handler, as a predicate on a
booking given the execution-time `now` (each entry's `new Date()`). -/
def bookingListingFilters (s : BookingListingStatus) (now : Int) (b : Booking) : Bool :=
  match s with
  | .upcoming =>
    decide (now ≤ b.endTime) &&
      ((b.recurringEventId.isSome && b.status == BookingStatus.ACCEPTED) ||
        (b.recurringEventId.isNone &&
          !([BookingStatus.CANCELLED, BookingStatus.REJECTED].contains b.status)))
  | .recurring =>
    decide (now ≤ b.endTime) &&
      (!b.recurringEventId.isNone &&
        !([BookingStatus.CANCELLED, BookingStatus.REJECTED].contains b.status))
  | .past =>
    decide (b.endTime ≤ now) &&
      (!(b.status == BookingStatus.CANCELLED) && !(b.status == BookingStatus.REJECTED))
  | .cancelled =>
    b.status == BookingStatus.CANCELLED || b.status == BookingStatus.REJECTED
  | .unconfirmed =>
    decide (now ≤ b.endTime) && b.status == BookingStatus.PENDING

/-- The `bookingListingOrderby` record of the handler. -/
def bookingListingOrderby : BookingListingStatus → SortOrder
  | .upcoming => .asc
  | .recurring => .asc
  | .past => .desc
  | .cancelled => .desc
  | .unconfirmed => .asc

/-- The request's scoping filters (`input.filters` minus `status`). -/
structure ScopingFilters where
  teamIds : Option (List Nat)
  userIds : Option (List Nat)
  eventTypeIds : Option (List Nat)
deriving DecidableEq

/-- `bookingWhereInputFilters.teamIds`: `eventType.team.id ∈ teamIds`. -/
def teamIdsFilter (db : Db) (ids : List Nat) (b : Booking) : Bool :=
  match b.eventTypeId.bind db.findEventType with
  | some et =>
    match et.teamId with
    | some t => ids.contains t
    | none => false
  | none => false

/-- `bookingWhereInputFilters.userIds`: a disjunction of `eventType.hosts`,
the booking's own `userId`, and `eventType.users`. -/
def userIdsFilter (db : Db) (ids : List Nat) (b : Booking) : Bool :=
  (match b.eventTypeId.bind db.findEventType with
    | some et => et.hostUserIds.any (fun u => ids.contains u)
    | none => false) ||
  ids.contains b.userId ||
  (match b.eventTypeId.bind db.findEventType with
    | some et => et.memberUserIds.any (fun u => ids.contains u)
    | none => false)

/-- `bookingWhereInputFilters.eventTypeIds`: `eventTypeId ∈ eventTypeIds`. -/
def eventTypeIdsFilter (ids : List Nat) (b : Booking) : Bool :=
  match b.eventTypeId with
  | some i => ids.contains i
  | none => false

/-- `filtersCombined`: one AND-combined predicate per scoping filter key that
is present on the request; the `status` key has no entry and absent keys
contribute nothing (the `.filter(Boolean)` step). -/
def filtersCombined (db : Db) (f : ScopingFilters) : List (Booking → Bool) :=
  (match f.teamIds with
    | some ids => [teamIdsFilter db ids]
    | none => []) ++
  (match f.userIds with
    | some ids => [userIdsFilter db ids]
    | none => []) ++
  (match f.eventTypeIds with
    | some ids => [eventTypeIdsFilter ids]
    | none => [])

/-- Owner path: `userId: user.id`. -/
def ownerPath (viewer : Viewer) (b : Booking) : Bool :=
  b.userId == viewer.id

/-- Attendee path: `attendees: { some: { email: user.email } }`. -/
def attendeePath (viewer : Viewer) (b : Booking) : Bool :=
  b.attendees.any (fun a => a.email == viewer.email)

/-- Seat-holder path: `seatsReferences: { some: { attendee: { email } } }`. -/
def seatReferencePath (viewer : Viewer) (b : Booking) : Bool :=
  b.seatsReferences.any (fun r => r.attendeeEmail == viewer.email)

/-- Team-event path: the four OR branches of the team bookings query —
org admins over the event type's team, team admins over it, and the same two
through the managed parent event type. -/
def teamEventsPath (db : Db) (viewer : Viewer) (b : Booking) : Bool :=
  (match b.eventTypeId.bind db.findEventType with
    | some et =>
      match et.teamId with
      | some t => db.parentAdminOrOwner viewer.id t
      | none => false
    | none => false) ||
  (match b.eventTypeId.bind db.findEventType with
    | some et =>
      match et.teamId with
      | some t => db.isAdminOrOwner viewer.id t
      | none => false
    | none => false) ||
  (match b.eventTypeId.bind db.findEventType with
    | some et =>
      match et.parentId.bind db.findEventType with
      | some pet =>
        match pet.teamId with
        | some t => db.isAdminOrOwner viewer.id t
        | none => false
      | none => false
    | none => false) ||
  (match b.eventTypeId.bind db.findEventType with
    | some et =>
      match et.parentId.bind db.findEventType with
      | some pet =>
        match pet.teamId with
        | some t => db.parentAdminOrOwner viewer.id t
        | none => false
      | none => false
    | none => false)

/-- The team ids of the teams a user belongs to (`user.teams`). -/
def Db.userTeamIds (db : Db) (uid : Nat) : List Nat :=
  (db.memberships.filter (fun m => m.userId == uid)).map (fun m => m.teamId)

/-- Team-personal path: the owner belongs to a team with `parentId > 0`, the
viewer is ADMIN/OWNER on such a team's parent organization or on the team
itself, and the event type is neither team-scoped nor a managed child. -/
def teamUsersPersonalPath (db : Db) (viewer : Viewer) (b : Booking) : Bool :=
  ((db.userTeamIds b.userId).any (fun tid =>
    match db.findTeam tid with
    | some t =>
      match t.parentId with
      | some p => decide (0 < p)
      | none => false
    | none => false)) &&
  (((db.userTeamIds b.userId).any (fun tid => db.parentAdminOrOwner viewer.id tid)) ||
    ((db.userTeamIds b.userId).any (fun tid => db.isAdminOrOwner viewer.id tid))) &&
  (match b.eventTypeId.bind db.findEventType with
    | some et => et.teamId.isNone
    | none => false) &&
  (match b.eventTypeId.bind db.findEventType with
    | some et => et.parentId.isNone
    | none => false)

/-- Comparison used by `orderBy: { startTime: asc | desc }`. -/
def bookingLe (o : SortOrder) (a b : Booking) : Bool :=
  match o with
  | .asc => decide (a.startTime ≤ b.startTime)
  | .desc => decide (b.startTime ≤ a.startTime)

/-- Stable insertion into a list sorted by `bookingLe`. -/
def insertSorted (o : SortOrder) (b : Booking) : List Booking → List Booking
  | [] => [b]
  | c :: rest => if bookingLe o c b then c :: insertSorted o b rest else b :: c :: rest

/-- Sorting by `startTime` in the requested direction (insertion sort). -/
def sortBookings (o : SortOrder) : List Booking → List Booking
  | [] => []
  | b :: rest => insertSorted o b (sortBookings o rest)

/-- A `findMany` over the bookings table: `where`, `orderBy`, `skip`, `take`. -/
def runBookingQuery (db : Db) (wher : Booking → Bool) (o : SortOrder)
    (takeN skipN : Nat) : List Booking :=
  (((sortBookings o (db.bookings.filter wher))).drop skipN).take takeN

/-- The `where` shape shared by the five visibility sub-queries: the path
predicate AND the status filter AND every scoping filter. -/
def subqueryWhere (path statusFilter : Booking → Bool)
    (scope : List (Booking → Bool)) (b : Booking) : Bool :=
  path b && statusFilter b && scope.all (fun p => p b)

/-- `bookingsQueryUserId`. -/
def bookingsQueryUserId (db : Db) (viewer : Viewer) (statusFilter : Booking → Bool)
    (scope : List (Booking → Bool)) (o : SortOrder) (takeN skipN : Nat) : List Booking :=
  runBookingQuery db (subqueryWhere (ownerPath viewer) statusFilter scope) o (takeN + 1) skipN

/-- `bookingsQueryAttendees`. -/
def bookingsQueryAttendees (db : Db) (viewer : Viewer) (statusFilter : Booking → Bool)
    (scope : List (Booking → Bool)) (o : SortOrder) (takeN skipN : Nat) : List Booking :=
  runBookingQuery db (subqueryWhere (attendeePath viewer) statusFilter scope) o (takeN + 1) skipN

/-- `bookingsQueryTeamEvents`. -/
def bookingsQueryTeamEvents (db : Db) (viewer : Viewer) (statusFilter : Booking → Bool)
    (scope : List (Booking → Bool)) (o : SortOrder) (takeN skipN : Nat) : List Booking :=
  runBookingQuery db (subqueryWhere (teamEventsPath db viewer) statusFilter scope) o (takeN + 1) skipN

/-- `bookingsQueryTeamUsersPersonalEvents`. -/
def bookingsQueryTeamUsersPersonalEvents (db : Db) (viewer : Viewer)
    (statusFilter : Booking → Bool) (scope : List (Booking → Bool)) (o : SortOrder)
    (takeN skipN : Nat) : List Booking :=
  runBookingQuery db (subqueryWhere (teamUsersPersonalPath db viewer) statusFilter scope) o
    (takeN + 1) skipN

/-- `bookingsQuerySeatReference`. -/
def bookingsQuerySeatReference (db : Db) (viewer : Viewer) (statusFilter : Booking → Bool)
    (scope : List (Booking → Bool)) (o : SortOrder) (takeN skipN : Nat) : List Booking :=
  runBookingQuery db (subqueryWhere (seatReferencePath viewer) statusFilter scope) o
    (takeN + 1) skipN

/-- The five visibility sub-query results, in the order they are issued. -/
def visibilitySubqueryResults (db : Db) (viewer : Viewer) (statusFilter : Booking → Bool)
    (scope : List (Booking → Bool)) (o : SortOrder) (takeN skipN : Nat) : List (List Booking) :=
  [bookingsQueryUserId db viewer statusFilter scope o takeN skipN,
   bookingsQueryAttendees db viewer statusFilter scope o takeN skipN,
   bookingsQueryTeamEvents db viewer statusFilter scope o takeN skipN,
   bookingsQueryTeamUsersPersonalEvents db viewer statusFilter scope o takeN skipN,
   bookingsQuerySeatReference db viewer statusFilter scope o takeN skipN]

/-- The effectful `arr.filter` inside `getUniqueBookings`: the module-level
set is threaded left to right; `set.has` decides the predicate and `set.add`
extends the set before the element is kept or dropped. -/
def dedupGo (seen : List String) : List Booking → List Booking
  | [] => []
  | b :: rest =>
    let duplicate := seen.contains b.uid
    let seen2 := if seen.contains b.uid then seen else b.uid :: seen
    if duplicate then dedupGo seen2 rest else b :: dedupGo seen2 rest

/-- `getUniqueBookings` with the module-level set made explicit: takes the
set's state at entry, returns the filtered list and the state at exit
(`set.clear()` runs before the return). -/
def getUniqueBookingsSt (st : List String) (arr : List Booking) :
    List Booking × List String :=
  (dedupGo st arr, [])

/-- `getUniqueBookings` as called by the pipeline: the module-level set is
empty at entry (see `runSequentialCalls` for why that holds sequentially). -/
def getUniqueBookings (arr : List Booking) : List Booking :=
  (getUniqueBookingsSt [] arr).1

/-- A sequence of sequential calls to `getUniqueBookings`, threading the
module-level set through; returns each call's output and the final set. -/
def runSequentialCalls (st : List String) :
    List (List Booking) → List (List Booking) × List String
  | [] => ([], st)
  | arr :: rest =>
    let r := getUniqueBookingsSt st arr
    let rr := runSequentialCalls r.2 rest
    (r.1 :: rr.1, rr.2)

/-- The rows owned by the viewer with a non-null series id: the shared
`where` clause of both `groupBy` aggregate queries. -/
def ownedRecurringRows (db : Db) (viewer : Viewer) : List Booking :=
  db.bookings.filter (fun b => b.recurringEventId.isSome && b.userId == viewer.id)

/-- First-occurrence distinct keys, used to model `groupBy` groups. -/
def distinctFirst {κ : Type} [BEq κ] (seen : List κ) : List κ → List κ
  | [] => []
  | k :: rest =>
    if seen.contains k then distinctFirst seen rest
    else k :: distinctFirst (k :: seen) rest

/-- One row of the basic aggregate (`groupBy: ["recurringEventId"]` with
`_min.startTime` and `_count.recurringEventId`). -/
structure BasicGroup where
  recurringEventId : Option String
  countRecurringEventId : Nat
  minStartTime : Option Int
deriving DecidableEq

/-- One row of the extended aggregate
(`groupBy: ["recurringEventId", "status", "startTime"]`). -/
structure ExtRow where
  recurringEventId : Option String
  status : BookingStatus
  startTime : Int
deriving DecidableEq

def listMinInt : List Int → Option Int
  | [] => none
  | x :: rest =>
    match listMinInt rest with
    | none => some x
    | some m => some (min x m)

/-- `recurringInfoBasic`: one group per distinct series id among the viewer's
own recurring bookings, with occurrence count and minimum start time. -/
def recurringInfoBasic (db : Db) (viewer : Viewer) : List BasicGroup :=
  let rows := ownedRecurringRows db viewer
  (distinctFirst [] (rows.map (fun b => b.recurringEventId))).map (fun k =>
    let group := rows.filter (fun b => b.recurringEventId == k)
    { recurringEventId := k
      countRecurringEventId := group.length
      minStartTime := listMinInt (group.map (fun b => b.startTime)) })

/-- `recurringInfoExtended`: one row per distinct
(series id, status, start time) triple among the viewer's own recurring
bookings, in first-occurrence order. -/
def recurringInfoExtended (db : Db) (viewer : Viewer) : List ExtRow :=
  distinctFirst []
    ((ownedRecurringRows db viewer).map (fun b =>
      { recurringEventId := b.recurringEventId
        status := b.status
        startTime := b.startTime }))

/-- The status→sequence accumulator of the `reduce` in `recurringInfo`,
initialized with all five statuses mapped to the empty sequence. -/
structure StatusBuckets where
  ACCEPTED : List Int
  CANCELLED : List Int
  REJECTED : List Int
  PENDING : List Int
  AWAITING_HOST : List Int
deriving DecidableEq

def emptyBuckets : StatusBuckets :=
  { ACCEPTED := [], CANCELLED := [], REJECTED := [], PENDING := [], AWAITING_HOST := [] }

def StatusBuckets.get (m : StatusBuckets) : BookingStatus → List Int
  | .ACCEPTED => m.ACCEPTED
  | .CANCELLED => m.CANCELLED
  | .REJECTED => m.REJECTED
  | .PENDING => m.PENDING
  | .AWAITING_HOST => m.AWAITING_HOST

/-- `prev[curr.status].push(curr.startTime)`. -/
def StatusBuckets.push (m : StatusBuckets) (s : BookingStatus) (t : Int) : StatusBuckets :=
  match s with
  | .ACCEPTED => { m with ACCEPTED := m.ACCEPTED ++ [t] }
  | .CANCELLED => { m with CANCELLED := m.CANCELLED ++ [t] }
  | .REJECTED => { m with REJECTED := m.REJECTED ++ [t] }
  | .PENDING => { m with PENDING := m.PENDING ++ [t] }
  | .AWAITING_HOST => { m with AWAITING_HOST := m.AWAITING_HOST ++ [t] }

/-- One element of the returned `recurringInfo` array. -/
structure RecurringInfo where
  recurringEventId : Option String
  count : Nat
  firstDate : Option Int
  bookings : StatusBuckets
deriving DecidableEq

/-- The `recurringInfoBasic.map` + `recurringInfoExtended.reduce` combine. -/
def combineRecurringInfo (basic : List BasicGroup) (extended : List ExtRow) :
    List RecurringInfo :=
  basic.map (fun info =>
    let bs := extended.foldl
      (fun prev curr =>
        if curr.recurringEventId == info.recurringEventId then
          prev.push curr.status curr.startTime
        else prev)
      emptyBuckets
    { recurringEventId := info.recurringEventId
      count := info.countRecurringEventId
      firstDate := info.minStartTime
      bookings := bs })

/-- The event type as projected into the response: the spread of the stored
event type (if any) with defaulted price and currency. -/
structure OutEventType where
  seatsShowAttendees : Option Bool
  price : Nat
  currency : String
deriving DecidableEq

/-- A booking as returned by the enrichment query and post-processing,
restricted to the modelled fields of `bookingSelect`. -/
structure OutBooking where
  id : Nat
  uid : String
  status : BookingStatus
  startTime : Int
  endTime : Int
  recurringEventId : Option String
  attendees : List Attendee
  seatsReferences : List SeatReference
  eventType : OutEventType
deriving DecidableEq

/-- The `seatsReferences` sub-select of `bookingSelect`: only seat references
whose attendee's e-mail equals the viewer's. -/
def selectSeatsReferences (viewer : Viewer) (b : Booking) : List SeatReference :=
  b.seatsReferences.filter (fun r => r.attendeeEmail == viewer.email)

/-- The `.map` over the enrichment query's results: attendee redaction for
seat bookings that hide attendees, then event-type normalization (price
defaulting to 0, currency to "usd"); timestamp serialization is kept as the
numeric value. -/
def projectBooking (db : Db) (viewer : Viewer) (b : Booking) : OutBooking :=
  let et := b.eventTypeId.bind db.findEventType
  let seatRefs := selectSeatsReferences viewer b
  let showAtt := et.bind (fun e => e.seatsShowAttendees)
  let outAttendees :=
    if seatRefs.length != 0 && !(showAtt == some true) then
      b.attendees.filter (fun a => a.email == viewer.email)
    else b.attendees
  { id := b.id
    uid := b.uid
    status := b.status
    startTime := b.startTime
    endTime := b.endTime
    recurringEventId := b.recurringEventId
    attendees := outAttendees
    seatsReferences := seatRefs
    eventType :=
      { seatsShowAttendees := showAtt
        price := match et with | some e => e.price | none => 0
        currency :=
          match et with
          | some e => if e.currency == "" then "usd" else e.currency
          | none => "usd" } }

/-- The enrichment `findMany`: full projection of the bookings whose id is in
`ids`, re-sorted by the original ordering (no `skip`/`take`). -/
def enrichedBookings (db : Db) (viewer : Viewer) (ids : List Nat) (o : SortOrder) :
    List OutBooking :=
  (sortBookings o (db.bookings.filter (fun b => ids.contains b.id))).map
    (projectBooking db viewer)

/-- The value returned by `getBookings`. -/
structure GetBookingsResult where
  bookings : List OutBooking
  recurringInfo : List RecurringInfo
deriving DecidableEq

/-- Everything `getBookings` does after the seven store queries return:
combine the aggregates, concatenate the five visibility results in issue
order, deduplicate by `uid`, and enrich. -/
def assembleResponse (viewer : Viewer) (db : Db)
    (q1 q2 q3 q4 q5 : List Booking) (basic : List BasicGroup) (extended : List ExtRow)
    (o : SortOrder) : GetBookingsResult :=
  let recurringInfo := combineRecurringInfo basic extended
  let plainBookings := getUniqueBookings (q1 ++ q2 ++ q3 ++ q4 ++ q5)
  let bookings := enrichedBookings db viewer (plainBookings.map (fun b => b.id)) o
  { bookings := bookings, recurringInfo := recurringInfo }

/-- `getBookings`. -/
def getBookings (db : Db) (viewer : Viewer) (statusFilter : Booking → Bool)
    (scope : List (Booking → Bool)) (o : SortOrder) (takeN skipN : Nat) :
    GetBookingsResult :=
  assembleResponse viewer db
    (bookingsQueryUserId db viewer statusFilter scope o takeN skipN)
    (bookingsQueryAttendees db viewer statusFilter scope o takeN skipN)
    (bookingsQueryTeamEvents db viewer statusFilter scope o takeN skipN)
    (bookingsQueryTeamUsersPersonalEvents db viewer statusFilter scope o takeN skipN)
    (bookingsQuerySeatReference db viewer statusFilter scope o takeN skipN)
    (recurringInfoBasic db viewer)
    (recurringInfoExtended db viewer)
    o

/-- The `Promise.all` of the seven store queries followed by the pure
post-processing: each query outcome is an `Except`, and the first failure
aborts the whole operation with that failure. -/
def getBookingsFallible (viewer : Viewer) (db : Db)
    (r1 r2 r3 r4 r5 : Except String (List Booking))
    (rb : Except String (List BasicGroup)) (re : Except String (List ExtRow))
    (o : SortOrder) : Except String GetBookingsResult := do
  let q1 ← r1
  let q2 ← r2
  let q3 ← r3
  let q4 ← r4
  let q5 ← r5
  let basic ← rb
  let extended ← re
  pure (assembleResponse viewer db q1 q2 q3 q4 q5 basic extended o)

/-- The request input (`TGetInputSchema`). -/
structure GetInput where
  status : BookingListingStatus
  filters : ScopingFilters
  limit : Option Nat
  cursor : Option Nat

/-- The handler's response. -/
structure GetHandlerResult where
  bookings : List OutBooking
  recurringInfo : List RecurringInfo
  nextCursor : Option Nat
deriving DecidableEq

/-- `getHandler`: defaults `take` to 10 and `skip` to 0, resolves the status
filter and ordering, runs `getBookings`, and derives `nextCursor` from the
final enriched count. -/
def getHandler (db : Db) (viewer : Viewer) (now : Int) (input : GetInput) :
    GetHandlerResult :=
  let takeN := input.limit.getD 10
  let skipN := input.cursor.getD 0
  let statusFilter := bookingListingFilters input.status now
  let o := bookingListingOrderby input.status
  let scope := filtersCombined db input.filters
  let r := getBookings db viewer statusFilter scope o takeN skipN
  let bookingsFetched := r.bookings.length
  let nextCursor : Option Nat :=
    if takeN < bookingsFetched then some (skipN + bookingsFetched) else none
  { bookings := r.bookings, recurringInfo := r.recurringInfo, nextCursor := nextCursor }

/-- The §4.1 table of the spec, written from its words: time/status predicate
per status tag. -/
def specStatusPredicate (s : BookingListingStatus) (now : Int) (b : Booking) : Prop :=
  match s with
  | .upcoming =>
    now ≤ b.endTime ∧
      ((b.recurringEventId ≠ none ∧ b.status = BookingStatus.ACCEPTED) ∨
        (b.recurringEventId = none ∧
          b.status ∉ [BookingStatus.CANCELLED, BookingStatus.REJECTED]))
  | .recurring =>
    now ≤ b.endTime ∧ b.recurringEventId ≠ none ∧
      b.status ∉ [BookingStatus.CANCELLED, BookingStatus.REJECTED]
  | .past =>
    b.endTime ≤ now ∧ b.status ∉ [BookingStatus.CANCELLED, BookingStatus.REJECTED]
  | .cancelled => b.status ∈ [BookingStatus.CANCELLED, BookingStatus.REJECTED]
  | .unconfirmed => now ≤ b.endTime ∧ b.status = BookingStatus.PENDING

/-- The §4.1 table of the spec: ordering direction per status tag. -/
def specOrderDirection : BookingListingStatus → SortOrder
  | .upcoming => .asc
  | .recurring => .asc
  | .past => .desc
  | .cancelled => .desc
  | .unconfirmed => .asc

/-- The spec's deduplication contract, written from its words: keep each
entry whose `uid` has not occurred earlier in the list (first occurrence
wins, keyed by `uid`). -/
def dedupByUidSpec : List Booking → List Booking
  | [] => []
  | b :: rest => b :: dedupByUidSpec (rest.filter (fun x => !(x.uid == b.uid)))
termination_by l => l.length
decreasing_by
  simp only [List.length_cons]
  exact Nat.lt_succ_of_le (List.length_filter_le _ _)

/-- A simple accepted one-off booking owned by user 1, used by the concrete
scenarios. -/
def ownBooking (i : Nat) (u : String) (t : Int) : Booking :=
  { id := i, uid := u, userId := 1, eventTypeId := none, startTime := t,
    endTime := t + 100, status := BookingStatus.ACCEPTED, recurringEventId := none,
    attendees := [], seatsReferences := [] }

/-- Scenario D's store: three upcoming bookings owned by the viewer. -/
def scenarioDDb : Db :=
  { bookings := [ownBooking 1 "b1" 10, ownBooking 2 "b2" 20, ownBooking 3 "b3" 30]
    eventTypes := []
    teams := []
    memberships := [] }

def scenarioViewer : Viewer := { id := 1, email := "viewer@example.com" }

def noScopingFilters : ScopingFilters :=
  { teamIds := none, userIds := none, eventTypeIds := none }

/-- Scenario D's request: filter `upcoming`, `limit = 2`, cursor `c`. -/
def scenarioDInput (c : Nat) : GetInput :=
  { status := BookingListingStatus.upcoming, filters := noScopingFilters,
    limit := some 2, cursor := some c }

/-- A booking owned by user 1 that also carries a seat reference for the
viewer's e-mail. -/
def seatBooking : Booking :=
  { id := 1, uid := "s1", userId := 1, eventTypeId := none, startTime := 0,
    endTime := 10, status := BookingStatus.ACCEPTED, recurringEventId := none,
    attendees := [],
    seatsReferences := [{ referenceUid := "ref1", attendeeEmail := "viewer@example.com" }] }

def seatDb : Db :=
  { bookings := [seatBooking], eventTypes := [], teams := [], memberships := [] }

/-- The enriched form of `seatBooking` for viewer 1. -/
def seatOut : OutBooking :=
  { id := 1, uid := "s1", status := BookingStatus.ACCEPTED, startTime := 0,
    endTime := 10, recurringEventId := none, attendees := [],
    seatsReferences := [{ referenceUid := "ref1", attendeeEmail := "viewer@example.com" }],
    eventType := { seatsShowAttendees := none, price := 0, currency := "usd" } }

def seatRef1 : SeatReference :=
  { referenceUid := "ref1", attendeeEmail := "viewer@example.com" }

/-- A seat-based booking with two attendee rows sharing the viewer's e-mail. -/
def dupAttendeeBooking : Booking :=
  { id := 1, uid := "d1", userId := 1, eventTypeId := some 1, startTime := 10,
    endTime := 110, status := BookingStatus.ACCEPTED, recurringEventId := none,
    attendees := [{ email := "viewer@example.com" }, { email := "viewer@example.com" }],
    seatsReferences := [{ referenceUid := "ref1", attendeeEmail := "viewer@example.com" }] }

/-- An event type with seats enabled and `seatsShowAttendees = false`. -/
def hideAttendeesEventType : EventType :=
  { id := 1, teamId := none, parentId := none, seatsShowAttendees := some false,
    price := 0, currency := "usd", hostUserIds := [], memberUserIds := [] }

def dupAttendeeDb : Db :=
  { bookings := [dupAttendeeBooking], eventTypes := [hideAttendeesEventType],
    teams := [], memberships := [] }

/-- The enriched form of `dupAttendeeBooking` for viewer 1: redaction keeps
both attendee rows because both carry the viewer's e-mail. -/
def dupOut : OutBooking :=
  { id := 1, uid := "d1", status := BookingStatus.ACCEPTED, startTime := 10,
    endTime := 110, recurringEventId := none,
    attendees := [{ email := "viewer@example.com" }, { email := "viewer@example.com" }],
    seatsReferences := [{ referenceUid := "ref1", attendeeEmail := "viewer@example.com" }],
    eventType := { seatsShowAttendees := some false, price := 0, currency := "usd" } }

/-- The returned `recurringInfo` value, as built from the two aggregates. -/
def recurringInfoOf (db : Db) (viewer : Viewer) : List RecurringInfo :=
  combineRecurringInfo (recurringInfoBasic db viewer) (recurringInfoExtended db viewer)

/-- The status buckets the `reduce` computes for one series key. -/
def bucketsOf (extended : List ExtRow) (key : Option String) : StatusBuckets :=
  extended.foldl
    (fun prev curr =>
      if curr.recurringEventId == key then prev.push curr.status curr.startTime
      else prev)
    emptyBuckets

/-- One occurrence of the series "series1", owned by user 1. -/
def recBooking (i : Nat) (u : String) (st : BookingStatus) (t : Int) : Booking :=
  { id := i, uid := u, userId := 1, eventTypeId := none, startTime := t,
    endTime := t + 100, status := st, recurringEventId := some "series1",
    attendees := [], seatsReferences := [] }

/-- Scenario E's store: a 3-occurrence series owned by the viewer with
statuses ACCEPTED, ACCEPTED, CANCELLED at times 1 < 2 < 3. -/
def recurringDb : Db :=
  { bookings :=
      [recBooking 1 "r1" BookingStatus.ACCEPTED 1,
       recBooking 2 "r2" BookingStatus.ACCEPTED 2,
       recBooking 3 "r3" BookingStatus.CANCELLED 3]
    eventTypes := []
    teams := []
    memberships := [] }

/-- A seat-based hidden-attendees booking with a single attendee row. -/
def singleAttendeeBooking : Booking :=
  { id := 1, uid := "a1", userId := 1, eventTypeId := some 1, startTime := 0,
    endTime := 10, status := BookingStatus.ACCEPTED, recurringEventId := none,
    attendees := [{ email := "viewer@example.com" }],
    seatsReferences := [{ referenceUid := "ref1", attendeeEmail := "viewer@example.com" }] }

def singleAttendeeDb : Db :=
  { bookings := [singleAttendeeBooking], eventTypes := [hideAttendeesEventType],
    teams := [], memberships := [] }

/-- The enriched form of `singleAttendeeBooking` for viewer 1. -/
def singleOut : OutBooking :=
  { id := 1, uid := "a1", status := BookingStatus.ACCEPTED, startTime := 0,
    endTime := 10, recurringEventId := none,
    attendees := [{ email := "viewer@example.com" }],
    seatsReferences := [{ referenceUid := "ref1", attendeeEmail := "viewer@example.com" }],
    eventType := { seatsShowAttendees := some false, price := 0, currency := "usd" } }

/-- Whether a query outcome is a success. -/
def exceptIsOk {ε α : Type} : Except ε α → Bool
  | .ok _ => true
  | .error _ => false

/-! ## Theorems -/

/-- C1: for every status tag, the resolved filter predicate and ordering
direction of the handler equal the §4.1 table: `upcoming` keeps future-ending
bookings that are either recurring-and-ACCEPTED or non-recurring and not
CANCELLED/REJECTED, ascending; `recurring` keeps future-ending recurring
bookings not CANCELLED/REJECTED, ascending; `past` keeps past-ending bookings
not CANCELLED/REJECTED, descending; `cancelled` keeps CANCELLED/REJECTED,
descending; `unconfirmed` keeps future-ending PENDING bookings, ascending. -/
theorem filter_resolver_matches_spec_table :
    ∀ (s : BookingListingStatus) (now : Int) (b : Booking),
      (bookingListingFilters s now b = true ↔ specStatusPredicate s now b) ∧
      bookingListingOrderby s = specOrderDirection s := by
  intro s now b
  cases s <;> refine ⟨?_, rfl⟩ <;>
    simp [bookingListingFilters, specStatusPredicate,
      Option.isSome_iff_ne_none, Option.isNone_iff_eq_none]

theorem filter_ext {α : Type} (p q : α → Bool) (l : List α) (h : ∀ x, p x = q x) :
    l.filter p = l.filter q := by
  rw [show p = q from funext h]

theorem dedupByUidSpec_nil : dedupByUidSpec [] = [] := by
  rw [dedupByUidSpec]

theorem dedupByUidSpec_cons (b : Booking) (rest : List Booking) :
    dedupByUidSpec (b :: rest) =
      b :: dedupByUidSpec (rest.filter (fun x => !(x.uid == b.uid))) := by
  rw [dedupByUidSpec]

theorem dedupGo_cons_dup {seen : List String} {b : Booking} (rest : List Booking)
    (h : seen.contains b.uid = true) :
    dedupGo seen (b :: rest) = dedupGo seen rest := by
  simp only [dedupGo, h]
  simp

theorem dedupGo_cons_new {seen : List String} {b : Booking} (rest : List Booking)
    (h : seen.contains b.uid = false) :
    dedupGo seen (b :: rest) = b :: dedupGo (b.uid :: seen) rest := by
  simp only [dedupGo, h]
  simp

theorem dedupGo_eq_spec : ∀ (arr : List Booking) (seen : List String),
    dedupGo seen arr = dedupByUidSpec (arr.filter (fun x => !(seen.contains x.uid))) := by
  intro arr
  induction arr with
  | nil =>
    intro seen
    rw [List.filter_nil, dedupByUidSpec_nil]
    rfl
  | cons b rest ih =>
    intro seen
    rcases hb : seen.contains b.uid with _ | _
    · rw [dedupGo_cons_new rest hb, List.filter_cons]
      simp only [hb, Bool.not_false, if_true]
      rw [dedupByUidSpec_cons, ih (b.uid :: seen), List.filter_filter]
      congr 2
      apply filter_ext
      intro x
      rw [List.contains_cons, Bool.not_or]
    · rw [dedupGo_cons_dup rest hb, List.filter_cons]
      simp only [hb, Bool.not_true, if_false]
      exact ih seen

theorem getUniqueBookings_eq_dedupByUidSpec (arr : List Booking) :
    getUniqueBookings arr = dedupByUidSpec arr := by
  have h := dedupGo_eq_spec arr []
  simpa [getUniqueBookings, getUniqueBookingsSt] using h

theorem mem_dedupByUidSpec : ∀ (l : List Booking) (x : Booking),
    x ∈ dedupByUidSpec l → x ∈ l := by
  intro l
  induction l using dedupByUidSpec.induct with
  | case1 =>
    intro x hx
    rw [dedupByUidSpec_nil] at hx
    exact absurd hx (List.not_mem_nil x)
  | case2 b rest ih =>
    intro x hx
    rw [dedupByUidSpec_cons] at hx
    rcases List.mem_cons.mp hx with h | h
    · exact h ▸ List.mem_cons_self _ _
    · exact List.mem_cons_of_mem _ (List.mem_of_mem_filter (ih x h))

theorem dedupByUidSpec_idem : ∀ (l : List Booking),
    dedupByUidSpec (dedupByUidSpec l) = dedupByUidSpec l := by
  intro l
  induction l using dedupByUidSpec.induct with
  | case1 => rw [dedupByUidSpec_nil, dedupByUidSpec_nil]
  | case2 b rest ih =>
    rw [dedupByUidSpec_cons, dedupByUidSpec_cons]
    congr 1
    have hf : (dedupByUidSpec (rest.filter (fun x => !(x.uid == b.uid)))).filter
        (fun x => !(x.uid == b.uid)) =
        dedupByUidSpec (rest.filter (fun x => !(x.uid == b.uid))) := by
      apply List.filter_eq_self.mpr
      intro a ha
      exact (List.mem_filter.mp (mem_dedupByUidSpec _ a ha)).2
    rw [hf, ih]

/-- C4: applied to any list of bookings, the deduplication step returns the
subsequence of entries whose `uid` has not occurred earlier in the list
(first occurrence wins, keyed by `uid`), and it is idempotent: applying it to
an already-deduplicated list returns that list unchanged. -/
theorem getUniqueBookings_first_occurrence_and_idempotent :
    ∀ (arr : List Booking),
      getUniqueBookings arr = dedupByUidSpec arr ∧
      getUniqueBookings (getUniqueBookings arr) = getUniqueBookings arr := by
  intro arr
  refine ⟨getUniqueBookings_eq_dedupByUidSpec arr, ?_⟩
  rw [getUniqueBookings_eq_dedupByUidSpec, getUniqueBookings_eq_dedupByUidSpec,
    dedupByUidSpec_idem]

theorem runSequentialCalls_from_empty : ∀ (calls : List (List Booking)),
    runSequentialCalls [] calls = (calls.map getUniqueBookings, []) := by
  intro calls
  induction calls with
  | nil => rfl
  | cons a rest ih =>
    simp only [runSequentialCalls, getUniqueBookingsSt, ih, List.map_cons]
    rfl

/-- C10: the deduplication function clears its module-level set before
returning, so under sequential execution the set is empty at every call's
entry and exit, every call computes the pure per-call deduplication, and two
sequential invocations on the same input return the same output. -/
theorem getUniqueBookings_state_cleared_and_deterministic :
    ∀ (st : List String) (arr : List Booking) (calls : List (List Booking)),
      (getUniqueBookingsSt st arr).2 = [] ∧
      runSequentialCalls [] calls = (calls.map getUniqueBookings, []) ∧
      (getUniqueBookingsSt ((getUniqueBookingsSt [] arr).2) arr).1 =
        (getUniqueBookingsSt [] arr).1 := by
  intro st arr calls
  exact ⟨rfl, runSequentialCalls_from_empty calls, rfl⟩

/-- C2: for every request with page size `take` (default 10) and offset
`skip` (default 0), `nextCursor` equals `skip` plus the final enriched
booking count when that count is strictly greater than `take`, and is `null`
otherwise (`null` iff count ≤ `take`); the returned list is not clamped to
`take`: with three matching bookings and `limit = 2`, `cursor = 0` the
response has 3 bookings and `nextCursor = 3`, and the follow-up call with
`cursor = 3` returns 0 bookings and `nextCursor = null`. -/
theorem nextCursor_rule_and_unclamped_page :
    (∀ (db : Db) (viewer : Viewer) (now : Int) (input : GetInput),
      (getHandler db viewer now input).nextCursor =
        (if input.limit.getD 10 < (getHandler db viewer now input).bookings.length then
          some (input.cursor.getD 0 + (getHandler db viewer now input).bookings.length)
        else none) ∧
      ((getHandler db viewer now input).nextCursor = none ↔
        (getHandler db viewer now input).bookings.length ≤ input.limit.getD 10)) ∧
    ((getHandler scenarioDDb scenarioViewer 0 (scenarioDInput 0)).bookings.length = 3 ∧
      (getHandler scenarioDDb scenarioViewer 0 (scenarioDInput 0)).nextCursor = some 3 ∧
      (getHandler scenarioDDb scenarioViewer 0 (scenarioDInput 3)).bookings.length = 0 ∧
      (getHandler scenarioDDb scenarioViewer 0 (scenarioDInput 3)).nextCursor = none) := by
  constructor
  · intro db viewer now input
    have hdef : (getHandler db viewer now input).nextCursor =
        (if input.limit.getD 10 < (getHandler db viewer now input).bookings.length then
          some (input.cursor.getD 0 + (getHandler db viewer now input).bookings.length)
        else none) := rfl
    refine ⟨hdef, ?_⟩
    rw [hdef]
    by_cases h : input.limit.getD 10 < (getHandler db viewer now input).bookings.length
    · simp only [h, if_true]
      constructor
      · intro hc; exact absurd hc (Option.some_ne_none _)
      · intro hle; omega
    · simp only [h, if_false]
      constructor
      · intro _; omega
      · intro _; trivial
  · decide

theorem mem_insertSorted {o : SortOrder} {b x : Booking} : ∀ {l : List Booking},
    x ∈ insertSorted o b l ↔ x = b ∨ x ∈ l := by
  intro l
  induction l with
  | nil => simp [insertSorted]
  | cons c rest ih =>
    by_cases h : bookingLe o c b
    · simp only [insertSorted, h, if_true, List.mem_cons, ih]
      tauto
    · simp only [insertSorted, h]
      simp only [Bool.false_eq_true, if_false, List.mem_cons]

theorem mem_sortBookings {o : SortOrder} {x : Booking} : ∀ {l : List Booking},
    x ∈ sortBookings o l ↔ x ∈ l := by
  intro l
  induction l with
  | nil => simp [sortBookings]
  | cons c rest ih =>
    simp only [sortBookings, mem_insertSorted, ih, List.mem_cons]

theorem mem_runBookingQuery {db : Db} {wher : Booking → Bool} {o : SortOrder}
    {takeN skipN : Nat} {x : Booking} (h : x ∈ runBookingQuery db wher o takeN skipN) :
    x ∈ db.bookings ∧ wher x = true := by
  have h1 : x ∈ sortBookings o (db.bookings.filter wher) :=
    List.mem_of_mem_drop (List.mem_of_mem_take h)
  have h2 : x ∈ db.bookings.filter wher := mem_sortBookings.mp h1
  exact ⟨List.mem_of_mem_filter h2, (List.mem_filter.mp h2).2⟩

/-- C9: every booking of the response carries only the viewer's own seat
references: the projection filters `seatsReferences` by the viewer's e-mail,
so seat references of other attendees never appear in the output. -/
theorem seatsReferences_only_viewer_email :
    ∀ (db : Db) (viewer : Viewer) (statusFilter : Booking → Bool)
      (scope : List (Booking → Bool)) (o : SortOrder) (takeN skipN : Nat),
      ∀ ob ∈ (getBookings db viewer statusFilter scope o takeN skipN).bookings,
        ∀ r ∈ ob.seatsReferences, r.attendeeEmail = viewer.email := by
  intro db viewer sf scope o t s ob hob r hr
  simp only [getBookings, assembleResponse, enrichedBookings] at hob
  obtain ⟨b, hb, rfl⟩ := List.mem_map.mp hob
  have h2 : r ∈ b.seatsReferences.filter (fun x => x.attendeeEmail == viewer.email) := hr
  exact beq_iff_eq.mp (List.mem_filter.mp h2).2

/-- C9 witness: on a one-booking store, the single returned seat reference
carries the viewer's e-mail. -/
theorem seatsReferences_only_viewer_email_w :
    seatOut ∈ (getBookings seatDb scenarioViewer (fun _ => true) [] SortOrder.asc 10 0).bookings ∧
    seatRef1 ∈ seatOut.seatsReferences ∧
    seatRef1.attendeeEmail = scenarioViewer.email :=
  ⟨by decide, by decide,
    seatsReferences_only_viewer_email seatDb scenarioViewer (fun _ => true) [] SortOrder.asc 10 0
      seatOut (by decide) seatRef1 (by decide)⟩

/-- C3 counterexample: on a store whose one booking has a seat reference for
the viewer, `seatsShowAttendees = false`, and two attendee rows sharing the
viewer's e-mail, the response's booking keeps both attendee rows, so the
redacted attendee list has length 2 > 1. -/
theorem attendee_redaction_length_counterexample :
    dupOut ∈ (getBookings dupAttendeeDb scenarioViewer
        (bookingListingFilters BookingListingStatus.upcoming 0) [] SortOrder.asc 10 0).bookings ∧
    1 ≤ dupOut.seatsReferences.length ∧
    dupOut.eventType.seatsShowAttendees = some false ∧
    1 < dupOut.attendees.length := by
  decide

/-- C3 amended: for every booking of the response with at least one seat
reference and `seatsShowAttendees` not true, every entry of the returned
attendee list carries the viewer's e-mail; the list has length at most 1
whenever no stored booking has two attendee rows with the viewer's e-mail
(the original bound fails only when a booking repeats the viewer's e-mail
across attendee rows). -/
theorem attendee_redaction_only_viewer :
    ∀ (db : Db) (viewer : Viewer) (statusFilter : Booking → Bool)
      (scope : List (Booking → Bool)) (o : SortOrder) (takeN skipN : Nat),
      ∀ ob ∈ (getBookings db viewer statusFilter scope o takeN skipN).bookings,
        1 ≤ ob.seatsReferences.length →
        ob.eventType.seatsShowAttendees ≠ some true →
        (∀ a ∈ ob.attendees, a.email = viewer.email) ∧
        ((∀ b ∈ db.bookings,
            (b.attendees.filter (fun a => a.email == viewer.email)).length ≤ 1) →
          ob.attendees.length ≤ 1) := by
  intro db viewer sf scope o t s ob hob h1 h2
  simp only [getBookings, assembleResponse, enrichedBookings] at hob
  obtain ⟨b, hb, rfl⟩ := List.mem_map.mp hob
  have hl : ((selectSeatsReferences viewer b).length != 0) = true := by
    have h1b : 1 ≤ (selectSeatsReferences viewer b).length := h1
    simp only [bne_iff_ne, ne_eq]
    omega
  have hs : (((b.eventTypeId.bind db.findEventType).bind
      (fun e => e.seatsShowAttendees)) == some true) = false := by
    have h2b : ((b.eventTypeId.bind db.findEventType).bind
        (fun e => e.seatsShowAttendees)) ≠ some true := h2
    simpa using h2b
  have hatt : (projectBooking db viewer b).attendees =
      (if (selectSeatsReferences viewer b).length != 0 &&
          !(((b.eventTypeId.bind db.findEventType).bind
            (fun e => e.seatsShowAttendees)) == some true)
        then b.attendees.filter (fun a => a.email == viewer.email)
        else b.attendees) := rfl
  rw [hatt, hl, hs]
  simp only [Bool.not_false, Bool.and_true, if_true]
  constructor
  · intro a ha
    exact beq_iff_eq.mp (List.mem_filter.mp ha).2
  · intro hglobal
    have hbdb : b ∈ db.bookings := by
      have := mem_sortBookings.mp hb
      exact List.mem_of_mem_filter this
    exact hglobal b hbdb

theorem ownedRecurringRows_restrict (db : Db) (viewer : Viewer) :
    ownedRecurringRows
        { db with bookings := db.bookings.filter (fun b => b.userId == viewer.id) } viewer =
      ownedRecurringRows db viewer := by
  simp only [ownedRecurringRows, List.filter_filter]
  apply filter_ext
  intro x
  cases hu : x.userId == viewer.id <;> cases hr : x.recurringEventId.isSome <;>
    simp [hu, hr]

/-- C7: both recurring-series aggregate queries consider only bookings whose
owning user id equals the viewer's id and whose `recurringEventId` is
non-null; restricting the store to viewer-owned bookings leaves the whole
`recurringInfo` output unchanged, so bookings visible only as attendee, team
admin, or seat holder never contribute to any summary. -/
theorem recurring_aggregates_owner_scoped :
    ∀ (db : Db) (viewer : Viewer),
      (∀ b ∈ ownedRecurringRows db viewer,
        b.userId = viewer.id ∧ b.recurringEventId ≠ none) ∧
      recurringInfoBasic db viewer =
        recurringInfoBasic
          { db with bookings := db.bookings.filter (fun b => b.userId == viewer.id) } viewer ∧
      recurringInfoExtended db viewer =
        recurringInfoExtended
          { db with bookings := db.bookings.filter (fun b => b.userId == viewer.id) } viewer ∧
      recurringInfoOf db viewer =
        recurringInfoOf
          { db with bookings := db.bookings.filter (fun b => b.userId == viewer.id) } viewer := by
  intro db viewer
  have hbasic : recurringInfoBasic db viewer =
      recurringInfoBasic
        { db with bookings := db.bookings.filter (fun b => b.userId == viewer.id) } viewer := by
    simp only [recurringInfoBasic, ownedRecurringRows_restrict]
  have hext : recurringInfoExtended db viewer =
      recurringInfoExtended
        { db with bookings := db.bookings.filter (fun b => b.userId == viewer.id) } viewer := by
    simp only [recurringInfoExtended, ownedRecurringRows_restrict]
  refine ⟨?_, hbasic, hext, ?_⟩
  · intro b hb
    have h := (List.mem_filter.mp hb).2
    have h1 : (b.recurringEventId.isSome && (b.userId == viewer.id)) = true := h
    have h2 := Bool.and_elim_left h1
    have h3 := Bool.and_elim_right h1
    exact ⟨beq_iff_eq.mp h3, Option.isSome_iff_ne_none.mp h2⟩
  · simp only [recurringInfoOf, hbasic, hext]

/-- C7 witness: on the concrete recurring store, the first aggregate row
comes from a viewer-owned recurring booking. -/
theorem recurring_aggregates_owner_scoped_w :
    recBooking 1 "r1" BookingStatus.ACCEPTED 1 ∈ ownedRecurringRows recurringDb scenarioViewer ∧
    ((recBooking 1 "r1" BookingStatus.ACCEPTED 1).userId = scenarioViewer.id ∧
      (recBooking 1 "r1" BookingStatus.ACCEPTED 1).recurringEventId ≠ none) :=
  ⟨by decide,
    (recurring_aggregates_owner_scoped recurringDb scenarioViewer).1
      (recBooking 1 "r1" BookingStatus.ACCEPTED 1) (by decide)⟩

theorem StatusBuckets.get_push (m : StatusBuckets) (s' s : BookingStatus) (t : Int) :
    (m.push s' t).get s = if s' = s then m.get s ++ [t] else m.get s := by
  cases s' <;> cases s <;> simp [StatusBuckets.push, StatusBuckets.get]

theorem bucketsOf_foldl_get (key : Option String) (s : BookingStatus) :
    ∀ (ext : List ExtRow) (acc : StatusBuckets),
      (ext.foldl
          (fun prev curr =>
            if curr.recurringEventId == key then prev.push curr.status curr.startTime
            else prev)
          acc).get s =
        acc.get s ++
          ((ext.filter (fun r => r.recurringEventId == key && r.status == s)).map
            (fun r => r.startTime)) := by
  intro ext
  induction ext with
  | nil => intro acc; simp
  | cons r rest ih =>
    intro acc
    rw [List.foldl_cons, List.filter_cons]
    by_cases hk : (r.recurringEventId == key) = true
    · rw [if_pos hk]
      by_cases hs : (r.status == s) = true
      · have hks : (r.recurringEventId == key && r.status == s) = true := by
          rw [hk, hs]; rfl
        rw [hks, if_pos rfl, List.map_cons, ih, StatusBuckets.get_push,
          if_pos (beq_iff_eq.mp hs), List.append_assoc]
        rfl
      · have hks : (r.recurringEventId == key && r.status == s) = false := by
          rw [hk, Bool.true_and]
          exact Bool.eq_false_iff.mpr (fun hh => hs hh)
        rw [hks]
        simp only [Bool.false_eq_true, if_false]
        rw [ih, StatusBuckets.get_push, if_neg (fun hh => hs (beq_iff_eq.mpr hh))]
    · rw [if_neg hk]
      have hks : (r.recurringEventId == key && r.status == s) = false := by
        have hk2 : (r.recurringEventId == key) = false := Bool.eq_false_iff.mpr hk
        rw [hk2, Bool.false_and]
      rw [hks]
      simp only [Bool.false_eq_true, if_false]
      exact ih acc

/-- C6: the returned `recurringInfo` maps each basic-aggregate group to a
summary whose `count` is the group's occurrence count, whose `firstDate` is
the group's minimum start time, and whose status map carries all five status
keys, each bucket being the start times of the extended-aggregate rows with
that series id and that status; on Scenario E (3 occurrences ACCEPTED,
ACCEPTED, CANCELLED at 1 < 2 < 3) this yields count 3, firstDate 1,
ACCEPTED = [1, 2], CANCELLED = [3], all other buckets empty. -/
theorem recurringInfo_matches_aggregates :
    (∀ (db : Db) (viewer : Viewer),
      recurringInfoOf db viewer =
        (recurringInfoBasic db viewer).map (fun info =>
          { recurringEventId := info.recurringEventId
            count := info.countRecurringEventId
            firstDate := info.minStartTime
            bookings := bucketsOf (recurringInfoExtended db viewer) info.recurringEventId }) ∧
      ∀ (key : Option String) (s : BookingStatus),
        (bucketsOf (recurringInfoExtended db viewer) key).get s =
          ((recurringInfoExtended db viewer).filter
            (fun r => r.recurringEventId == key && r.status == s)).map
            (fun r => r.startTime)) ∧
    recurringInfoOf recurringDb scenarioViewer =
      [{ recurringEventId := some "series1", count := 3, firstDate := some 1,
         bookings :=
          { ACCEPTED := [1, 2], CANCELLED := [3], REJECTED := [], PENDING := [],
            AWAITING_HOST := [] } }] := by
  constructor
  · intro db viewer
    constructor
    · rfl
    · intro key s
      rw [bucketsOf, bucketsOf_foldl_get]
      cases s <;> simp [emptyBuckets, StatusBuckets.get]
  · decide

theorem insertSorted_perm (o : SortOrder) (b : Booking) : ∀ (l : List Booking),
    List.Perm (insertSorted o b l) (b :: l) := by
  intro l
  induction l with
  | nil => exact List.Perm.refl [b]
  | cons c rest ih =>
    by_cases h : bookingLe o c b
    · have h1 : insertSorted o b (c :: rest) = c :: insertSorted o b rest := by
        simp only [insertSorted, h, if_true]
      rw [h1]
      exact List.Perm.trans (List.Perm.cons c ih) (List.Perm.swap b c rest)
    · have h1 : insertSorted o b (c :: rest) = b :: c :: rest := by
        simp only [insertSorted, h]
        simp
      rw [h1]

theorem sortBookings_perm (o : SortOrder) : ∀ (l : List Booking),
    List.Perm (sortBookings o l) l := by
  intro l
  induction l with
  | nil => exact List.Perm.refl []
  | cons b rest ih =>
    exact List.Perm.trans (insertSorted_perm o b (sortBookings o rest))
      (List.Perm.cons b ih)

theorem dedupGo_subset : ∀ (l : List Booking) (seen : List String) (x : Booking),
    x ∈ dedupGo seen l → x ∈ l := by
  intro l
  induction l with
  | nil =>
    intro seen x hx
    exact absurd hx (List.not_mem_nil x)
  | cons b rest ih =>
    intro seen x hx
    rcases hb : seen.contains b.uid with _ | _
    · rw [dedupGo_cons_new rest hb] at hx
      rcases List.mem_cons.mp hx with h | h
      · exact h ▸ List.mem_cons_self _ _
      · exact List.mem_cons_of_mem _ (ih _ x h)
    · rw [dedupGo_cons_dup rest hb] at hx
      exact List.mem_cons_of_mem _ (ih _ x hx)

theorem dedupGo_covers_uid : ∀ (l : List Booking) (seen : List String) (b : Booking),
    b ∈ l → seen.contains b.uid = false → ∃ c ∈ dedupGo seen l, c.uid = b.uid := by
  intro l
  induction l with
  | nil =>
    intro seen b hb _
    exact absurd hb (List.not_mem_nil b)
  | cons a rest ih =>
    intro seen b hb hs
    rcases ha : seen.contains a.uid with _ | _
    · rw [dedupGo_cons_new rest ha]
      rcases List.mem_cons.mp hb with h | h
      · exact ⟨a, List.mem_cons_self _ _, by rw [h]⟩
      · rcases hcon : (a.uid :: seen).contains b.uid with _ | _
        · obtain ⟨c, hc, hcu⟩ := ih (a.uid :: seen) b h hcon
          exact ⟨c, List.mem_cons_of_mem _ hc, hcu⟩
        · have hor : (b.uid == a.uid || seen.contains b.uid) = true := by
            rw [← List.contains_cons]
            exact hcon
          rw [hs, Bool.or_false] at hor
          exact ⟨a, List.mem_cons_self _ _, (beq_iff_eq.mp hor).symm⟩
    · rw [dedupGo_cons_dup rest ha]
      rcases List.mem_cons.mp hb with h | h
      · rw [h] at hs
        rw [hs] at ha
        exact absurd ha (by simp)
      · exact ih seen b h hs

theorem mem_visibilitySubqueryResults_subset {db : Db} {viewer : Viewer}
    {statusFilter : Booking → Bool} {scope : List (Booking → Bool)} {o : SortOrder}
    {takeN skipN : Nat} {l : List Booking} {x : Booking}
    (hl : l ∈ visibilitySubqueryResults db viewer statusFilter scope o takeN skipN)
    (hx : x ∈ l) : x ∈ db.bookings := by
  simp only [visibilitySubqueryResults, List.mem_cons, List.not_mem_nil, or_false] at hl
  rcases hl with h | h | h | h | h <;>
    exact (mem_runBookingQuery (h ▸ hx)).1

theorem mem_concat_of_mem_subquery {db : Db} {viewer : Viewer}
    {statusFilter : Booking → Bool} {scope : List (Booking → Bool)} {o : SortOrder}
    {takeN skipN : Nat} {l : List Booking} {x : Booking}
    (hl : l ∈ visibilitySubqueryResults db viewer statusFilter scope o takeN skipN)
    (hx : x ∈ l) :
    x ∈ bookingsQueryUserId db viewer statusFilter scope o takeN skipN ++
        bookingsQueryAttendees db viewer statusFilter scope o takeN skipN ++
        bookingsQueryTeamEvents db viewer statusFilter scope o takeN skipN ++
        bookingsQueryTeamUsersPersonalEvents db viewer statusFilter scope o takeN skipN ++
        bookingsQuerySeatReference db viewer statusFilter scope o takeN skipN := by
  simp only [visibilitySubqueryResults, List.mem_cons, List.not_mem_nil, or_false] at hl
  simp only [List.mem_append]
  rcases hl with h | h | h | h | h
  · exact Or.inl (Or.inl (Or.inl (Or.inl (h ▸ hx))))
  · exact Or.inl (Or.inl (Or.inl (Or.inr (h ▸ hx))))
  · exact Or.inl (Or.inl (Or.inr (h ▸ hx)))
  · exact Or.inl (Or.inr (h ▸ hx))
  · exact Or.inr (h ▸ hx)

/-- C5: when a booking is returned by two or more of the five visibility
sub-queries, the final bookings list of the response contains exactly one
entry with that booking's `uid` — assuming the store is well-formed (row ids
are unique and `uid` identifies a unique row). -/
theorem duplicate_visibility_paths_collapse :
    ∀ (db : Db) (viewer : Viewer) (statusFilter : Booking → Bool)
      (scope : List (Booking → Bool)) (o : SortOrder) (takeN skipN : Nat) (b : Booking),
      (db.bookings.map (fun x => x.id)).Nodup →
      (∀ b1 ∈ db.bookings, ∀ b2 ∈ db.bookings, b1.uid = b2.uid → b1 = b2) →
      2 ≤ ((visibilitySubqueryResults db viewer statusFilter scope o takeN skipN).countP
            (fun l => l.contains b)) →
      ((getBookings db viewer statusFilter scope o takeN skipN).bookings.filter
          (fun ob => ob.uid == b.uid)).length = 1 := by
  intro db viewer sf scope o t s b hnodup huid hcount
  -- the booking is in at least one sub-query result
  have hpos : 0 < ((visibilitySubqueryResults db viewer sf scope o t s).countP
      (fun l => l.contains b)) := by omega
  obtain ⟨l, hl, hlb⟩ := List.countP_pos_iff.mp hpos
  have hbl : b ∈ l := List.elem_iff.mp hlb
  have hbdb : b ∈ db.bookings := mem_visibilitySubqueryResults_subset hl hbl
  have hbconcat := mem_concat_of_mem_subquery hl hbl
  -- the deduplicated list contains the row with this uid, namely `b` itself
  obtain ⟨c, hc, hcu⟩ := dedupGo_covers_uid _ [] b hbconcat rfl
  have hcdb : c ∈ db.bookings := by
    have hcconcat := dedupGo_subset _ [] c hc
    simp only [List.mem_append] at hcconcat
    rcases hcconcat with ((((h | h) | h) | h) | h) <;>
      exact (mem_runBookingQuery h).1
  have hcb : c = b := huid c hcdb b hbdb hcu
  have hbplain : b ∈ dedupGo []
      (bookingsQueryUserId db viewer sf scope o t s ++
        bookingsQueryAttendees db viewer sf scope o t s ++
        bookingsQueryTeamEvents db viewer sf scope o t s ++
        bookingsQueryTeamUsersPersonalEvents db viewer sf scope o t s ++
        bookingsQuerySeatReference db viewer sf scope o t s) := hcb ▸ hc
  -- hence its id is in the enrichment id set
  set plain := dedupGo []
      (bookingsQueryUserId db viewer sf scope o t s ++
        bookingsQueryAttendees db viewer sf scope o t s ++
        bookingsQueryTeamEvents db viewer sf scope o t s ++
        bookingsQueryTeamUsersPersonalEvents db viewer sf scope o t s ++
        bookingsQuerySeatReference db viewer sf scope o t s) with hplain
  have hid : b.id ∈ plain.map (fun x => x.id) := List.mem_map_of_mem _ hbplain
  -- count entries with this uid in the final list
  have hfinal : (getBookings db viewer sf scope o t s).bookings =
      (sortBookings o
        (db.bookings.filter (fun x => (plain.map (fun y => y.id)).contains x.id))).map
        (projectBooking db viewer) := rfl
  rw [hfinal, ← List.countP_eq_length_filter, List.countP_map]
  have hfun : ((fun ob => ob.uid == b.uid) ∘ projectBooking db viewer) =
      (fun x => x.uid == b.uid) := rfl
  rw [hfun, List.Perm.countP_eq _ (sortBookings_perm o _), List.countP_filter]
  -- the counted predicate holds exactly at the unique stored row `b`
  have hle : (db.bookings.countP
      (fun x => (x.uid == b.uid) && (plain.map (fun y => y.id)).contains x.id)) ≤
      (db.bookings.countP (fun x => x.id == b.id)) := by
    apply List.countP_mono_left
    intro x hx hpx
    have hxu : x.uid = b.uid := beq_iff_eq.mp (Bool.and_elim_left hpx)
    have hxb : x = b := huid x hx b hbdb hxu
    rw [hxb]
    exact beq_iff_eq.mpr rfl
  have hcountid : (db.bookings.countP (fun x => x.id == b.id)) ≤ 1 := by
    have hmapped : (db.bookings.map (fun x => x.id)).count b.id ≤ 1 :=
      List.nodup_iff_count_le_one.mp hnodup b.id
    calc (db.bookings.countP (fun x => x.id == b.id))
        = (db.bookings.map (fun x => x.id)).countP (fun i => i == b.id) := by
          rw [List.countP_map]; rfl
      _ = (db.bookings.map (fun x => x.id)).count b.id := by
          rw [List.count_eq_countP]
      _ ≤ 1 := hmapped
  have hge : 0 < (db.bookings.countP
      (fun x => (x.uid == b.uid) && (plain.map (fun y => y.id)).contains x.id)) := by
    apply List.countP_pos_iff.mpr
    refine ⟨b, hbdb, ?_⟩
    have h1 : (b.uid == b.uid) = true := beq_iff_eq.mpr rfl
    have h2 : ((plain.map (fun y => y.id)).contains b.id) = true :=
      List.elem_iff.mpr hid
    rw [h1, h2]
    rfl
  omega

/-- C8: the five visibility sub-queries and the two aggregate queries run
under an all-or-nothing contract: the operation succeeds exactly when all
seven queries succeed, a single failing query fails the whole operation with
that query's error and no partial result, and seven successes produce the
complete assembled response (and, with the actual query results, exactly the
`getBookings` response). -/
theorem fanout_all_or_nothing :
    ∀ (viewer : Viewer) (db : Db) (o : SortOrder)
      (q1 q2 q3 q4 q5 : List Booking) (basic : List BasicGroup) (extended : List ExtRow)
      (r1 r2 r3 r4 r5 : Except String (List Booking))
      (rb : Except String (List BasicGroup)) (re : Except String (List ExtRow))
      (e : String) (statusFilter : Booking → Bool) (scope : List (Booking → Bool))
      (takeN skipN : Nat),
      (getBookingsFallible viewer db
          (.ok (bookingsQueryUserId db viewer statusFilter scope o takeN skipN))
          (.ok (bookingsQueryAttendees db viewer statusFilter scope o takeN skipN))
          (.ok (bookingsQueryTeamEvents db viewer statusFilter scope o takeN skipN))
          (.ok (bookingsQueryTeamUsersPersonalEvents db viewer statusFilter scope o takeN skipN))
          (.ok (bookingsQuerySeatReference db viewer statusFilter scope o takeN skipN))
          (.ok (recurringInfoBasic db viewer)) (.ok (recurringInfoExtended db viewer)) o =
        .ok (getBookings db viewer statusFilter scope o takeN skipN)) ∧
      (getBookingsFallible viewer db (.ok q1) (.ok q2) (.ok q3) (.ok q4) (.ok q5)
          (.ok basic) (.ok extended) o =
        .ok (assembleResponse viewer db q1 q2 q3 q4 q5 basic extended o)) ∧
      (exceptIsOk (getBookingsFallible viewer db r1 r2 r3 r4 r5 rb re o) =
        (exceptIsOk r1 && exceptIsOk r2 && exceptIsOk r3 && exceptIsOk r4 &&
          exceptIsOk r5 && exceptIsOk rb && exceptIsOk re)) ∧
      (r1 = .error e →
        getBookingsFallible viewer db r1 r2 r3 r4 r5 rb re o = .error e) ∧
      (r1 = .ok q1 → r2 = .error e →
        getBookingsFallible viewer db r1 r2 r3 r4 r5 rb re o = .error e) ∧
      (r1 = .ok q1 → r2 = .ok q2 → r3 = .error e →
        getBookingsFallible viewer db r1 r2 r3 r4 r5 rb re o = .error e) ∧
      (r1 = .ok q1 → r2 = .ok q2 → r3 = .ok q3 → r4 = .error e →
        getBookingsFallible viewer db r1 r2 r3 r4 r5 rb re o = .error e) ∧
      (r1 = .ok q1 → r2 = .ok q2 → r3 = .ok q3 → r4 = .ok q4 → r5 = .error e →
        getBookingsFallible viewer db r1 r2 r3 r4 r5 rb re o = .error e) ∧
      (r1 = .ok q1 → r2 = .ok q2 → r3 = .ok q3 → r4 = .ok q4 → r5 = .ok q5 →
        rb = .error e →
        getBookingsFallible viewer db r1 r2 r3 r4 r5 rb re o = .error e) ∧
      (r1 = .ok q1 → r2 = .ok q2 → r3 = .ok q3 → r4 = .ok q4 → r5 = .ok q5 →
        rb = .ok basic → re = .error e →
        getBookingsFallible viewer db r1 r2 r3 r4 r5 rb re o = .error e) := by
  intro viewer db o q1 q2 q3 q4 q5 basic extended r1 r2 r3 r4 r5 rb re e sf scope t s
  refine ⟨rfl, rfl, ?_, ?_, ?_, ?_, ?_, ?_, ?_, ?_⟩
  · cases r1 <;> cases r2 <;> cases r3 <;> cases r4 <;> cases r5 <;> cases rb <;>
      cases re <;> rfl
  · intro h1; rw [h1]; rfl
  · intro h1 h2; rw [h1, h2]; rfl
  · intro h1 h2 h3; rw [h1, h2, h3]; rfl
  · intro h1 h2 h3 h4; rw [h1, h2, h3, h4]; rfl
  · intro h1 h2 h3 h4 h5; rw [h1, h2, h3, h4, h5]; rfl
  · intro h1 h2 h3 h4 h5 h6; rw [h1, h2, h3, h4, h5, h6]; rfl
  · intro h1 h2 h3 h4 h5 h6 h7; rw [h1, h2, h3, h4, h5, h6, h7]; rfl

/-- C8 witness: with six successes and one connectivity failure, the whole
operation fails with that error; with all seven successes it returns the
complete response. -/
theorem fanout_all_or_nothing_w :
    ((Except.error "connect timeout" : Except String (List Booking)) =
      Except.error "connect timeout") ∧
    getBookingsFallible scenarioViewer scenarioDDb
        (.ok []) (.error "connect timeout") (.ok []) (.ok []) (.ok [])
        (.ok []) (.ok []) SortOrder.asc =
      Except.error "connect timeout" ∧
    getBookingsFallible scenarioViewer scenarioDDb
        (.ok []) (.ok []) (.ok []) (.ok []) (.ok []) (.ok []) (.ok []) SortOrder.asc =
      Except.ok (assembleResponse scenarioViewer scenarioDDb [] [] [] [] [] [] []
        SortOrder.asc) :=
  ⟨rfl,
    (fanout_all_or_nothing scenarioViewer scenarioDDb SortOrder.asc
        [] [] [] [] [] [] []
        (.ok []) (.error "connect timeout") (.ok []) (.ok []) (.ok [])
        (.ok []) (.ok []) "connect timeout" (fun _ => true) [] 10 0).2.2.2.2.1
      rfl rfl,
    (fanout_all_or_nothing scenarioViewer scenarioDDb SortOrder.asc
        [] [] [] [] [] [] []
        (.ok []) (.ok []) (.ok []) (.ok []) (.ok [])
        (.ok []) (.ok []) "connect timeout" (fun _ => true) [] 10 0).2.1⟩

/-- C1 witness: the `upcoming` entry evaluated at a concrete booking. -/
theorem filter_resolver_matches_spec_table_w :
    (bookingListingFilters BookingListingStatus.upcoming 0 (ownBooking 1 "b1" 10) = true ↔
      specStatusPredicate BookingListingStatus.upcoming 0 (ownBooking 1 "b1" 10)) ∧
    bookingListingOrderby BookingListingStatus.upcoming =
      specOrderDirection BookingListingStatus.upcoming :=
  filter_resolver_matches_spec_table BookingListingStatus.upcoming 0 (ownBooking 1 "b1" 10)

/-- C2 witness: the cursor rule evaluated on the Scenario D store. -/
theorem nextCursor_rule_and_unclamped_page_w :
    (getHandler scenarioDDb scenarioViewer 0 (scenarioDInput 0)).nextCursor =
      (if (scenarioDInput 0).limit.getD 10 <
          (getHandler scenarioDDb scenarioViewer 0 (scenarioDInput 0)).bookings.length then
        some ((scenarioDInput 0).cursor.getD 0 +
          (getHandler scenarioDDb scenarioViewer 0 (scenarioDInput 0)).bookings.length)
      else none) ∧
    ((getHandler scenarioDDb scenarioViewer 0 (scenarioDInput 0)).nextCursor = none ↔
      (getHandler scenarioDDb scenarioViewer 0 (scenarioDInput 0)).bookings.length ≤
        (scenarioDInput 0).limit.getD 10) :=
  nextCursor_rule_and_unclamped_page.1 scenarioDDb scenarioViewer 0 (scenarioDInput 0)

/-- C3 amended witness: with a single attendee row carrying the viewer's
e-mail, the redacted list keeps the bound of one entry. -/
theorem attendee_redaction_only_viewer_w :
    singleOut ∈ (getBookings singleAttendeeDb scenarioViewer (fun _ => true) []
      SortOrder.asc 10 0).bookings ∧
    1 ≤ singleOut.seatsReferences.length ∧
    singleOut.eventType.seatsShowAttendees ≠ some true ∧
    singleOut.attendees.length ≤ 1 :=
  ⟨by decide, by decide, by decide,
    (attendee_redaction_only_viewer singleAttendeeDb scenarioViewer (fun _ => true) []
        SortOrder.asc 10 0 singleOut (by decide) (by decide) (by decide)).2 (by decide)⟩

/-- C5 witness: a booking reachable through both the owner and the
seat-holder paths appears exactly once in the final list. -/
theorem duplicate_visibility_paths_collapse_w :
    (seatDb.bookings.map (fun x => x.id)).Nodup ∧
    (∀ b1 ∈ seatDb.bookings, ∀ b2 ∈ seatDb.bookings, b1.uid = b2.uid → b1 = b2) ∧
    2 ≤ ((visibilitySubqueryResults seatDb scenarioViewer (fun _ => true) []
          SortOrder.asc 10 0).countP (fun l => l.contains seatBooking)) ∧
    ((getBookings seatDb scenarioViewer (fun _ => true) [] SortOrder.asc 10 0).bookings.filter
        (fun ob => ob.uid == seatBooking.uid)).length = 1 :=
  ⟨by decide, by decide, by decide,
    duplicate_visibility_paths_collapse seatDb scenarioViewer (fun _ => true) []
      SortOrder.asc 10 0 seatBooking (by decide) (by decide) (by decide)⟩

end BookingsGet
